import Mathlib

/-!
Shallow embedding of the skill-gap analysis core of the career-prediction-system
repository, translated from `src/pages/skill_gap_analysis.py` (career profile
building, top-N required skills, gap evaluation) and the level-label conversion
`numeric_to_text_level` from `src/pages/career_predictor.py`.

Machine floats of the source are modelled as exact rationals (the dataset levels
are small integers and all arithmetic here is means and comparisons); Python
exceptions are modelled with `Except`/`Option`; `np.random` draws are modelled as
explicit random-source parameters.
-/

/-- The fixed seven-label proficiency scale (`proficiency_levels` in
`skill_gap_analysis.py`, lines 259-262, identical list in `career_predictor.py`). -/
def proficiency_levels : List String :=
  ["Not Interested", "Poor", "Beginner",
   "Average", "Intermediate", "Excellent", "Professional"]

/-- Python list indexing `l[i]`: nonnegative indices from the front, negative
indices from the back, `none` models an `IndexError`. -/
def pyIndex (l : List String) (i : ℤ) : Option String :=
  if 0 ≤ i then l.get? i.toNat
  else if 0 ≤ (l.length : ℤ) + i then l.get? ((l.length : ℤ) + i).toNat
  else none

/-- Python's built-in `round` on an exact value: round half to even
(banker's rounding), returning an integer.  Stated on the numerator and
denominator so that it evaluates by kernel reduction;
`pythonRound_eq` below proves it equal to the usual floor/fraction
formulation of round-half-to-even. -/
def pythonRound (q : ℚ) : ℤ :=
  if 2 * (q.num - q.floor * (q.den : ℤ)) < (q.den : ℤ) then q.floor
  else if (q.den : ℤ) < 2 * (q.num - q.floor * (q.den : ℤ)) then q.floor + 1
  else if q.floor % 2 = 0 then q.floor else q.floor + 1

theorem ratFloor_eq_intFloor (q : ℚ) : q.floor = Int.floor q := by
  rw [Rat.floor_def, Rat.floor_def']

theorem num_eq_mul_den (q : ℚ) : (q.num : ℚ) = q * (q.den : ℚ) :=
  (div_eq_iff (by exact_mod_cast q.den_ne_zero)).mp (Rat.num_div_den q)

theorem pythonRound_lt_half_iff (q : ℚ) :
    (2 * (q.num - Int.floor q * (q.den : ℤ)) < (q.den : ℤ)) ↔
      q - (Int.floor q : ℚ) < 1/2 := by
  have h2d : (0:ℚ) < 2 * (q.den : ℚ) := by positivity
  have cast_iff : (2 * (q.num - Int.floor q * (q.den : ℤ)) < (q.den : ℤ)) ↔
      2 * ((q.num : ℚ) - (Int.floor q : ℚ) * (q.den : ℚ)) < (q.den : ℚ) := by
    exact_mod_cast Iff.rfl
  rw [cast_iff]
  constructor
  · intro hA
    refine (mul_lt_mul_right h2d).mp ?_
    calc (q - (Int.floor q : ℚ)) * (2 * (q.den : ℚ))
        = 2 * ((q.num : ℚ) - (Int.floor q : ℚ) * (q.den : ℚ)) := by
          rw [num_eq_mul_den]; ring
      _ < (q.den : ℚ) := hA
      _ = (1/2) * (2 * (q.den : ℚ)) := by ring
  · intro hB
    have hB' := (mul_lt_mul_right h2d).mpr hB
    calc 2 * ((q.num : ℚ) - (Int.floor q : ℚ) * (q.den : ℚ))
        = (q - (Int.floor q : ℚ)) * (2 * (q.den : ℚ)) := by
          rw [num_eq_mul_den]; ring
      _ < (1/2) * (2 * (q.den : ℚ)) := hB'
      _ = (q.den : ℚ) := by ring

theorem pythonRound_gt_half_iff (q : ℚ) :
    ((q.den : ℤ) < 2 * (q.num - Int.floor q * (q.den : ℤ))) ↔
      (1:ℚ)/2 < q - (Int.floor q : ℚ) := by
  have h2d : (0:ℚ) < 2 * (q.den : ℚ) := by positivity
  have cast_iff : ((q.den : ℤ) < 2 * (q.num - Int.floor q * (q.den : ℤ))) ↔
      (q.den : ℚ) < 2 * ((q.num : ℚ) - (Int.floor q : ℚ) * (q.den : ℚ)) := by
    exact_mod_cast Iff.rfl
  rw [cast_iff]
  constructor
  · intro hA
    refine (mul_lt_mul_right h2d).mp ?_
    calc (1/2) * (2 * (q.den : ℚ)) = (q.den : ℚ) := by ring
      _ < 2 * ((q.num : ℚ) - (Int.floor q : ℚ) * (q.den : ℚ)) := hA
      _ = (q - (Int.floor q : ℚ)) * (2 * (q.den : ℚ)) := by
          rw [num_eq_mul_den]; ring
  · intro hB
    have hB' := (mul_lt_mul_right h2d).mpr hB
    calc (q.den : ℚ) = (1/2) * (2 * (q.den : ℚ)) := by ring
      _ < (q - (Int.floor q : ℚ)) * (2 * (q.den : ℚ)) := hB'
      _ = 2 * ((q.num : ℚ) - (Int.floor q : ℚ) * (q.den : ℚ)) := by
          rw [num_eq_mul_den]; ring

/-- `pythonRound` is round-half-to-even on the floor/fractional-part
formulation, exactly Python's `round`. -/
theorem pythonRound_eq (q : ℚ) :
    pythonRound q =
      if q - (Int.floor q : ℚ) < 1/2 then Int.floor q
      else if (1:ℚ)/2 < q - (Int.floor q : ℚ) then Int.floor q + 1
      else if Int.floor q % 2 = 0 then Int.floor q else Int.floor q + 1 := by
  unfold pythonRound
  rw [ratFloor_eq_intFloor]
  exact if_congr (pythonRound_lt_half_iff q) rfl
    (if_congr (pythonRound_gt_half_iff q) rfl rfl)

theorem pythonRound_eq_floor_or_succ (q : ℚ) :
    pythonRound q = Int.floor q ∨ pythonRound q = Int.floor q + 1 := by
  rw [pythonRound_eq]
  split_ifs <;> simp

theorem pythonRound_nonneg {q : ℚ} (h : 0 ≤ q) : 0 ≤ pythonRound q := by
  have hf : 0 ≤ Int.floor q := Int.floor_nonneg.mpr h
  rcases pythonRound_eq_floor_or_succ q with he | he <;> rw [he] <;> omega

theorem pythonRound_le {q : ℚ} {n : ℤ} (h : q ≤ (n : ℚ)) :
    pythonRound q ≤ n := by
  have hf : Int.floor q ≤ n := by
    calc Int.floor q ≤ Int.floor ((n:ℚ)) := Int.floor_le_floor h
      _ = n := Int.floor_intCast n
  rw [pythonRound_eq]
  split_ifs with h1 h2 h3
  · exact hf
  · -- fractional part exceeds 1/2, so the floor is strictly below `q ≤ n`
    have hq : (Int.floor q : ℚ) < (n : ℚ) - 1/2 := by linarith
    have : (Int.floor q : ℚ) < (n : ℚ) := by linarith
    have : Int.floor q < n := by exact_mod_cast this
    omega
  · -- fractional part is exactly 1/2
    have hhalf : (1:ℚ)/2 ≤ q - (Int.floor q : ℚ) := by linarith
    have : (Int.floor q : ℚ) < (n : ℚ) := by linarith
    have : Int.floor q < n := by exact_mod_cast this
    omega
  · have hhalf : (1:ℚ)/2 ≤ q - (Int.floor q : ℚ) := by linarith
    have : (Int.floor q : ℚ) < (n : ℚ) := by linarith
    have : Int.floor q < n := by exact_mod_cast this
    omega

/-- One step of the stable descending insertion sort: insert `x` before the
first element whose key is not greater than `x`'s key.  This models the
ordering produced by Python's stable `sorted(..., key=..., reverse=True)`. -/
def insertDescBy {α β : Type} [LinearOrder β] (key : α → β) (x : α) :
    List α → List α
  | [] => [x]
  | y :: ys => if key x < key y then y :: insertDescBy key x ys else x :: y :: ys

/-- Stable sort by descending key, as Python's
`sorted(items, key=..., reverse=True)` (ties keep their original order). -/
def sortDescBy {α β : Type} [LinearOrder β] (key : α → β) : List α → List α
  | [] => []
  | x :: xs => insertDescBy key x (sortDescBy key xs)

theorem perm_insertDescBy {α β : Type} [LinearOrder β] (key : α → β) (x : α)
    (l : List α) : List.Perm (insertDescBy key x l) (x :: l) := by
  induction l with
  | nil => exact List.Perm.refl _
  | cons y ys ih =>
    simp only [insertDescBy]
    split
    · exact ((ih.cons y).trans (List.Perm.swap x y ys))
    · exact List.Perm.refl _

theorem perm_sortDescBy {α β : Type} [LinearOrder β] (key : α → β)
    (l : List α) : List.Perm (sortDescBy key l) l := by
  induction l with
  | nil => exact List.Perm.refl _
  | cons x xs ih =>
    exact (perm_insertDescBy key x (sortDescBy key xs)).trans (ih.cons x)

theorem pairwise_insertDescBy {α β : Type} [LinearOrder β] (key : α → β)
    (x : α) : ∀ l : List α, l.Pairwise (fun a b => key b ≤ key a) →
    (insertDescBy key x l).Pairwise (fun a b => key b ≤ key a) := by
  intro l
  induction l with
  | nil => intro _; simp [insertDescBy]
  | cons y ys ih =>
    intro h
    have hy : ∀ z ∈ ys, key z ≤ key y := fun z hz =>
      List.rel_of_pairwise_cons h hz
    have hys : ys.Pairwise (fun a b => key b ≤ key a) := h.of_cons
    by_cases hlt : key x < key y
    · simp only [insertDescBy, if_pos hlt]
      refine List.Pairwise.cons ?_ (ih hys)
      intro z hz
      rcases List.mem_cons.mp ((perm_insertDescBy key x ys).mem_iff.mp hz) with
        hz' | hz'
      · subst hz'; exact le_of_lt hlt
      · exact hy z hz'
    · simp only [insertDescBy, if_neg hlt]
      refine List.Pairwise.cons ?_ (List.Pairwise.cons hy hys)
      intro z hz
      rcases List.mem_cons.mp hz with hz' | hz'
      · subst hz'; exact not_lt.mp hlt
      · exact le_trans (hy z hz') (not_lt.mp hlt)

theorem sorted_sortDescBy {α β : Type} [LinearOrder β] (key : α → β)
    (l : List α) : (sortDescBy key l).Pairwise (fun a b => key b ≤ key a) := by
  induction l with
  | nil => simp [sortDescBy]
  | cons x xs ih => exact pairwise_insertDescBy key x (sortDescBy key xs) ih

theorem filter_insertDescBy {α β : Type} [LinearOrder β] (key : α → β) (x : α)
    (l : List α) (v : β) :
    (insertDescBy key x l).filter (fun e => decide (key e = v)) =
      if key x = v then x :: l.filter (fun e => decide (key e = v))
      else l.filter (fun e => decide (key e = v)) := by
  induction l with
  | nil =>
    by_cases hxv : key x = v <;> simp [insertDescBy, List.filter_cons, hxv]
  | cons y ys ih =>
    simp only [insertDescBy]
    by_cases hlt : key x < key y
    · rw [if_pos hlt]
      by_cases hxv : key x = v
      · have hyv : ¬ key y = v := fun hyv' =>
          absurd (hxv.trans hyv'.symm) (ne_of_lt hlt)
        simp [List.filter_cons, hyv, hxv, ih]
      · simp [List.filter_cons, hxv, ih]
    · rw [if_neg hlt]
      by_cases hxv : key x = v <;> simp [List.filter_cons, hxv]

theorem filter_sortDescBy {α β : Type} [LinearOrder β] (key : α → β)
    (l : List α) (v : β) :
    (sortDescBy key l).filter (fun e => decide (key e = v)) =
      l.filter (fun e => decide (key e = v)) := by
  induction l with
  | nil => rfl
  | cons x xs ih =>
    simp only [sortDescBy]
    rw [filter_insertDescBy, ih, List.filter_cons]
    by_cases hxv : key x = v <;> simp [hxv]

/-! ## The loaded dataset (`pd.read_csv` result) -/

/-- One dataframe cell: a parsed numeric level, or text that cannot be
converted to a number (pandas would raise a `TypeError` when averaging it). -/
inductive Cell : Type
  | num : ℚ → Cell
  | txt : String → Cell
deriving DecidableEq

/-- One dataframe row: its `Role` value and its cell at each column. -/
structure Row where
  role : String
  cell : String → Cell

/-- The loaded dataframe: a column list and the rows. -/
structure DF where
  cols : List String
  rows : List Row

/-- `skill_cols = [col for col in df.columns if col != "Role"]`
(skill_gap_analysis.py line 94). -/
def skillColsOf (df : DF) : List String :=
  df.cols.filter (fun c => c != "Role")

/-- The distinct role values, i.e. the group keys of `df.groupby("Role")`.
(pandas emits groups sorted by key; every use downstream is a key lookup, so
the order of groups is immaterial and first-appearance order is used here.) -/
def rolesOf (rows : List Row) : List String :=
  (rows.map Row.role).dedup

/-- The rows of one role's group. -/
def groupOf (rows : List Row) (r : String) : List Row :=
  rows.filter (fun w => w.role == r)

/-- `df.groupby("Role")` as an association list of (role, group). -/
def groupByRole (rows : List Row) : List (String × List Row) :=
  (rolesOf rows).map (fun r => (r, groupOf rows r))

/-- Numeric value of a cell, `none` for non-numeric text. -/
def cellNumOf : Cell → Option ℚ
  | .num q => some q
  | .txt _ => none

/-- All numeric values of a cell series; `none` as soon as any cell is
non-numeric (the pandas mean raises on the whole series). -/
def numsOf : List Cell → Option (List ℚ)
  | [] => some []
  | c :: cs =>
    match cellNumOf c, numsOf cs with
    | some q, some qs => some (q :: qs)
    | _, _ => none

/-- `group[col].mean()`: arithmetic mean of the column's cells, raising
(`Except.error`) if a cell cannot be treated as a number. -/
def seriesMean (cells : List Cell) : Except String ℚ :=
  match numsOf cells with
  | some qs => .ok (qs.sum / (qs.length : ℚ))
  | none => .error "TypeError: could not convert string to numeric"

/-- Run a fallible computation over a list, raising at the first failure
(models a Python loop whose body may raise). -/
def exceptMapList {α β : Type} (f : α → Except String β) :
    List α → Except String (List β)
  | [] => .ok []
  | x :: xs =>
    match f x with
    | .error e => .error e
    | .ok y =>
      match exceptMapList f xs with
      | .error e => .error e
      | .ok ys => .ok (y :: ys)

/-- `role_profile = {col: group[col].mean() for col in skill_cols}`
(skill_gap_analysis.py line 101), as an association list in column order. -/
def roleProfileE (skill_cols : List String) (g : List Row) :
    Except String (List (String × ℚ)) :=
  exceptMapList
    (fun c => (seriesMean (g.map (fun w => w.cell c))).map (fun m => (c, m)))
    skill_cols

/-- Per-role profiles and per-role top-`top_n` skills. -/
abbrev Profiles := List (String × List (String × ℚ))

/-- `get_career_skill_profiles` (skill_gap_analysis.py lines 94-110), applied
to the already-loaded dataframe: group by role, average each skill column,
sort each role's skills by descending mean (Python's stable `sorted` with
`reverse=True`, ties keeping dict insertion order = column order) and keep the
top `top_n`.  Any processing exception is returned as an error value to the
caller, matching the `(None, None, error)` return. -/
def get_career_skill_profiles (df : DF) (top_n : ℕ) :
    Except String (Profiles × Profiles) :=
  if "Role" ∈ df.cols then
    match exceptMapList
        (fun rg => (roleProfileE (skillColsOf df) rg.2).map
          (fun prof => (rg.1, prof)))
        (groupByRole df.rows) with
    | .ok profiles =>
      .ok (profiles,
        profiles.map
          (fun rp => (rp.1, (sortDescBy (fun e => e.2) rp.2).take top_n)))
    | .error e => .error ("Error processing career profiles: " ++ e)
  else .error "Error processing career profiles: KeyError Role"

/-! ## Module-level fallback (skill_gap_analysis.py lines 112-125) -/

/-- `{skill: np.random.uniform(3, 6) for skill in features}`; the random draws
are modelled as an explicit source `rng` indexed by (career, skill). -/
def fallbackProfile (rng : String → String → ℚ) (features : List String)
    (career : String) : List (String × ℚ) :=
  features.map (fun s => (s, rng career s))

/-- The simulated profiles built when `get_career_skill_profiles` reported an
error (lines 116-121). -/
def fallbackProfiles (rng : String → String → ℚ)
    (classes features : List String) : Profiles :=
  classes.map (fun c => (c, fallbackProfile rng features c))

/-- The simulated top-5 skills built when `get_career_skill_profiles` reported
an error (lines 123-125). -/
def fallbackTop (rng : String → String → ℚ)
    (classes features : List String) : Profiles :=
  classes.map
    (fun c => (c, (sortDescBy (fun e => e.2) (fallbackProfile rng features c)).take 5))

/-- The module-level computation of `career_profiles, top_career_skills`
(lines 112-125): call the builder and, if it reports an error, silently
substitute simulated profiles; no error is surfaced. -/
def pageProfiles (rng : String → String → ℚ) (classes features : List String)
    (df : DF) : Profiles × Profiles :=
  match get_career_skill_profiles df 5 with
  | .ok pt => pt
  | .error _ =>
    (fallbackProfiles rng classes features, fallbackTop rng classes features)

/-! ## Gap evaluation (consumers of the profiles) -/

/-- Python `d.get(k, default)` on a skill → rational-level dict. -/
def dictGetQ (d : List (String × ℚ)) (k : String) (dflt : ℚ) : ℚ :=
  (d.lookup k).getD dflt

/-- Python `d.get(k, default)` on a skill → integer-level dict. -/
def dictGetZ (d : List (String × ℤ)) (k : String) (dflt : ℤ) : ℤ :=
  (d.lookup k).getD dflt

/-- `career_profiles.get(selected_career, {})` (lines 379 and 469). -/
def careerProfileOf (profiles : Profiles) (career : String) :
    List (String × ℚ) :=
  (profiles.lookup career).getD []

/-- The "Skills to Improve" metric loop (lines 382-387): count the skills
where `user_skills.get(skill, 3) < round(career_profile.get(skill, 3))`. -/
def skillGapsCount (user_skills : List (String × ℤ))
    (career_profile : List (String × ℚ)) (encoder_features : List String) : ℕ :=
  encoder_features.countP
    (fun skill =>
      decide (dictGetZ user_skills skill 3 <
        pythonRound (dictGetQ career_profile skill 3)))

/-- What the top-skills section renders for one (skill, score) pair. -/
structure TopSkillView where
  skill : String
  userLevel : ℤ
  requiredLevel : ℤ
  gap : ℤ
  userLabel : Option String
  requiredLabel : Option String
deriving DecidableEq

/-- Top-skills section body (lines 417-449): `required_level = round(score)`
and `user_level` are both clamped into 0..6 with `max(0, min(6, _))` before
the gap and the label lookups. -/
def topSkillView (user_skills : List (String × ℤ)) (skill : String)
    (score : ℚ) : TopSkillView :=
  { skill := skill
    userLevel := max 0 (min 6 (dictGetZ user_skills skill 3))
    requiredLevel := max 0 (min 6 (pythonRound score))
    gap := max 0 (min 6 (pythonRound score)) -
      max 0 (min 6 (dictGetZ user_skills skill 3))
    userLabel := pyIndex proficiency_levels
      (max 0 (min 6 (dictGetZ user_skills skill 3)))
    requiredLabel := pyIndex proficiency_levels
      (max 0 (min 6 (pythonRound score))) }

/-- One entry of `skill_data` (lines 473-486). -/
structure SkillGapRow where
  skill : String
  yourLevelLabel : Option String
  requiredLevelLabel : Option String
  requiredScore : ℚ
  gap : ℤ
  gapText : String
deriving DecidableEq

/-- Body of the `skill_data` loop (lines 473-486): the required level is
`round(required_level_float)` with NO clamping, and the labels are plain list
indexings `proficiency_levels[...]` (`none` models the `IndexError` raised
when the index is out of range). -/
def skillDataRow (user_skills : List (String × ℤ))
    (career_profile : List (String × ℚ)) (skill : String) : SkillGapRow :=
  { skill := skill
    yourLevelLabel := pyIndex proficiency_levels (dictGetZ user_skills skill 3)
    requiredLevelLabel := pyIndex proficiency_levels
      (pythonRound (dictGetQ career_profile skill 3))
    requiredScore := dictGetQ career_profile skill 3
    gap := pythonRound (dictGetQ career_profile skill 3) -
      dictGetZ user_skills skill 3
    gapText :=
      if 0 < pythonRound (dictGetQ career_profile skill 3) -
          dictGetZ user_skills skill 3 then
        "+" ++ toString (pythonRound (dictGetQ career_profile skill 3) -
          dictGetZ user_skills skill 3) ++ " levels"
      else "No gap" }

/-- The full `skill_data` list: one row per encoder feature, in catalog
order (line 473). -/
def skillData (user_skills : List (String × ℤ))
    (career_profile : List (String × ℚ)) (encoder_features : List String) :
    List SkillGapRow :=
  encoder_features.map (skillDataRow user_skills career_profile)

/-- `df_gaps` of tab 2 (line 530): rows with `Gap > 0`, sorted by
descending gap. -/
def gapRowsToImprove (sd : List SkillGapRow) : List SkillGapRow :=
  sortDescBy (fun r => r.gap) (sd.filter (fun r => decide (0 < r.gap)))

/-- Tab 2 shows the success message iff `df_gaps.empty` (lines 532-533). -/
def tab2ShowsSuccess (sd : List SkillGapRow) : Bool :=
  (gapRowsToImprove sd).isEmpty

/-- The match-score box (lines 358-366): the stored confidence when the
selection equals the latest analysed role, otherwise a simulated
`np.random.uniform(0.6, 0.9)` draw, modelled by the explicit `rng` value. -/
def matchScore (latest : Option (String × ℚ)) (selected : String)
    (rng : ℚ) : ℚ :=
  match latest with
  | some rc => if rc.1 = selected then rc.2 else rng
  | none => rng

/-- The page's metric row: the (possibly random) match score next to the
deterministic skills-to-improve count. -/
def pageSummary (rng : ℚ) (latest : Option (String × ℚ)) (selected : String)
    (user_skills : List (String × ℤ)) (career_profile : List (String × ℚ))
    (encoder_features : List String) : ℚ × ℕ :=
  (matchScore latest selected rng,
   skillGapsCount user_skills career_profile encoder_features)

/-- The user vector that assigns every feature the rounded profile entry
(used by the round-trip property). -/
def roundedVector (career_profile : List (String × ℚ))
    (encoder_features : List String) : List (String × ℤ) :=
  encoder_features.map (fun s => (s, pythonRound (dictGetQ career_profile s 3)))

/-- The observations the input holds for a (role, skill) pair: one numeric
level per row of that role, provided the skill is one of the dataframe's
skill columns (a CSV row has a cell in every column of the file). -/
def obsLevels (df : DF) (r s : String) : List Cell :=
  if s ∈ skillColsOf df then (groupOf df.rows r).map (fun w => w.cell s)
  else []

/-- Number of observations recorded for a (role, skill) pair. -/
def obsCount (df : DF) (r s : String) : ℕ := (obsLevels df r s).length

/-- The numeric levels recorded for a (role, skill) pair (meaningful when
they all parse). -/
def obsValues (df : DF) (r s : String) : List ℚ :=
  (numsOf (obsLevels df r s)).getD []

/-! ## `numeric_to_text_level` (career_predictor.py lines 333-340) -/

/-- A Python value as it may reach `numeric_to_text_level`. -/
inductive PyVal : Type
  | pyInt : ℤ → PyVal
  | pyBool : Bool → PyVal
  | pyFloat : ℚ → PyVal
  | pyStr : String → PyVal
  | pyNone : PyVal
deriving DecidableEq

/-- Python `isinstance(v, int)`; `bool` is a subclass of `int`. -/
def isinstance_int : PyVal → Bool
  | .pyInt _ => true
  | .pyBool _ => true
  | _ => false

/-- The integer value of a Python int (or bool); irrelevant elsewhere. -/
def pyIntVal : PyVal → ℤ
  | .pyInt i => i
  | .pyBool b => if b then 1 else 0
  | _ => 0

/-- `numeric_to_text_level` (career_predictor.py lines 333-340): the label at
the zero-based rank for an int in 0..6, `"Average"` for everything else.  The
range guard makes the list indexing safe, so the `getD` default is
unreachable. -/
def numeric_to_text_level (v : PyVal) : String :=
  if isinstance_int v = true ∧ 0 ≤ pyIntVal v ∧ pyIntVal v ≤ 6 then
    (pyIndex proficiency_levels (pyIntVal v)).getD "Average"
  else "Average"


/-! ## Helper lemmas about the profile builder -/

theorem exceptMapList_error_of_mem {α β : Type} (f : α → Except String β)
    {l : List α} {x : α} (hx : x ∈ l) {e : String} (hf : f x = .error e) :
    ∃ e', exceptMapList f l = .error e' := by
  induction l with
  | nil => cases hx
  | cons y ys ih =>
    rcases List.mem_cons.mp hx with h | h
    · subst h
      exact ⟨e, by simp [exceptMapList, hf]⟩
    · cases hy : f y with
      | error e2 => exact ⟨e2, by simp [exceptMapList, hy]⟩
      | ok b =>
        obtain ⟨e', he'⟩ := ih h
        exact ⟨e', by simp [exceptMapList, hy, he']⟩

theorem exceptMapList_map {α γ β : Type} (f : α → γ)
    (F : γ → Except String β) (l : List α) :
    exceptMapList F (l.map f) = exceptMapList (fun x => F (f x)) l := by
  induction l with
  | nil => rfl
  | cons x xs ih => simp [exceptMapList, ih]

theorem exceptMapList_cons {α β : Type} (f : α → Except String β) (x : α)
    (xs : List α) :
    exceptMapList f (x :: xs) =
      match f x with
      | .error e => .error e
      | .ok y =>
        match exceptMapList f xs with
        | .error e => .error e
        | .ok ys => .ok (y :: ys) := rfl

theorem exceptMap_error {β γ : Type} (f : β → γ) (e : String) :
    Except.map f (Except.error e : Except String β) = .error e := rfl

theorem exceptMap_ok {β γ : Type} (f : β → γ) (x : β) :
    Except.map f (Except.ok x : Except String β) = .ok (f x) := rfl

theorem exceptMapList_keyed {β : Type} (g : String → Except String β) :
    ∀ (keys : List String) (out : List (String × β)),
      exceptMapList (fun k => (g k).map (fun b => (k, b))) keys = .ok out →
      ∀ k : String,
        (k ∈ keys → ∃ b, g k = .ok b ∧ out.lookup k = some b) ∧
        (k ∉ keys → out.lookup k = none) := by
  intro keys
  induction keys with
  | nil =>
    intro out h k
    simp only [exceptMapList, Except.ok.injEq] at h
    constructor
    · intro hk; cases hk
    · intro _; rw [← h]; rfl
  | cons c cs ih =>
    intro out h k
    rw [exceptMapList_cons] at h
    cases hg : g c with
    | error e =>
      rw [hg, exceptMap_error] at h
      have h2 : (Except.error e : Except String (List (String × β))) =
          .ok out := h
      cases h2
    | ok b =>
      rw [hg, exceptMap_ok] at h
      cases hrest : exceptMapList (fun k => (g k).map (fun b => (k, b))) cs with
      | error e2 =>
        rw [hrest] at h
        have h2 : (Except.error e2 : Except String (List (String × β))) =
            .ok out := h
        cases h2
      | ok rest =>
        rw [hrest] at h
        have h2 : (Except.ok ((c, b) :: rest) :
            Except String (List (String × β))) = .ok out := h
        cases h2
        constructor
        · intro hk
          by_cases hkc : k = c
          · subst hkc
            exact ⟨b, hg, by simp [List.lookup]⟩
          · rcases List.mem_cons.mp hk with h' | h'
            · exact absurd h' hkc
            · obtain ⟨b', hb', hlook⟩ := (ih rest hrest k).1 h'
              refine ⟨b', hb', ?_⟩
              simpa [List.lookup, beq_eq_false_iff_ne.mpr hkc] using hlook
        · intro hk
          have hkc : k ≠ c := fun h' => hk (h' ▸ List.mem_cons_self c cs)
          have hkcs : k ∉ cs := fun h' => hk (List.mem_cons_of_mem c h')
          have hrec := (ih rest hrest k).2 hkcs
          simpa [List.lookup, beq_eq_false_iff_ne.mpr hkc] using hrec

theorem numsOf_none_of_mem {cells : List Cell} {c : Cell} (hc : c ∈ cells)
    (h : cellNumOf c = none) : numsOf cells = none := by
  induction cells with
  | nil => cases hc
  | cons d ds ih =>
    rcases List.mem_cons.mp hc with h' | h'
    · subst h'; simp [numsOf, h]
    · cases hd : cellNumOf d <;> simp [numsOf, hd, ih h']

theorem numsOf_length {cells : List Cell} {qs : List ℚ}
    (h : numsOf cells = some qs) : qs.length = cells.length := by
  induction cells generalizing qs with
  | nil => simp [numsOf] at h; simp [← h]
  | cons d ds ih =>
    cases hd : cellNumOf d with
    | none => simp [numsOf, hd] at h
    | some q =>
      cases hds : numsOf ds with
      | none => simp [numsOf, hd, hds] at h
      | some qs' =>
        simp only [numsOf, hd, hds, Option.some.injEq] at h
        simp [← h, ih hds]

theorem seriesMean_ok_elim {cells : List Cell} {m : ℚ}
    (h : seriesMean cells = .ok m) :
    ∃ qs, numsOf cells = some qs ∧ m = qs.sum / (qs.length : ℚ) := by
  unfold seriesMean at h
  cases hn : numsOf cells <;> rw [hn] at h
  · simp at h
  · simp only [Except.ok.injEq] at h
    exact ⟨_, rfl, h.symm⟩

theorem seriesMean_error_of_mem {cells : List Cell} {c : Cell} (hc : c ∈ cells)
    (h : cellNumOf c = none) :
    seriesMean cells = .error "TypeError: could not convert string to numeric" := by
  unfold seriesMean
  rw [numsOf_none_of_mem hc h]

theorem mem_rolesOf {rows : List Row} {r : String} :
    r ∈ rolesOf rows ↔ ∃ w ∈ rows, w.role = r := by
  simp [rolesOf, List.mem_dedup, List.mem_map]

theorem groupOf_ne_nil {rows : List Row} {r : String} (h : r ∈ rolesOf rows) :
    groupOf rows r ≠ [] := by
  obtain ⟨w, hw, hwr⟩ := mem_rolesOf.mp h
  intro hnil
  have : w ∈ groupOf rows r := by
    simp [groupOf, List.mem_filter, hw, hwr]
  rw [hnil] at this
  cases this

/-- Successful profile building, decomposed per role: `profiles` associates
each role of the input with the `.ok` result of averaging its group, and
contains no other keys; `top` takes the per-role stable descending top-n. -/
theorem get_profiles_ok_elim {df : DF} {n : ℕ} {profiles top : Profiles}
    (h : get_career_skill_profiles df n = .ok (profiles, top)) :
    "Role" ∈ df.cols ∧
    top = profiles.map
      (fun rp => (rp.1, (sortDescBy (fun e => e.2) rp.2).take n)) ∧
    ∀ r : String,
      (r ∈ rolesOf df.rows →
        ∃ prof, roleProfileE (skillColsOf df) (groupOf df.rows r) = .ok prof ∧
          profiles.lookup r = some prof) ∧
      (r ∉ rolesOf df.rows → profiles.lookup r = none) := by
  unfold get_career_skill_profiles at h
  by_cases hrole : "Role" ∈ df.cols
  · rw [if_pos hrole] at h
    cases hmap : exceptMapList
        (fun rg => (roleProfileE (skillColsOf df) rg.2).map
          (fun prof => (rg.1, prof)))
        (groupByRole df.rows) with
    | error e => rw [hmap] at h; simp at h
    | ok ps =>
      rw [hmap] at h
      simp only [Except.ok.injEq, Prod.mk.injEq] at h
      obtain ⟨hp, ht⟩ := h
      rw [hp] at hmap
      rw [hp] at ht
      refine ⟨hrole, ht.symm, ?_⟩
      have hmap' : exceptMapList
          (fun r => (roleProfileE (skillColsOf df) (groupOf df.rows r)).map
            (fun prof => (r, prof)))
          (rolesOf df.rows) = .ok profiles := by
        rw [← exceptMapList_map (fun r => (r, groupOf df.rows r))
          (fun rg => (roleProfileE (skillColsOf df) rg.2).map
            (fun prof => (rg.1, prof))) (rolesOf df.rows)]
        exact hmap
      intro r
      exact exceptMapList_keyed
        (fun r => roleProfileE (skillColsOf df) (groupOf df.rows r))
        (rolesOf df.rows) profiles hmap' r
  · rw [if_neg hrole] at h
    simp at h

/-- Successful per-role profile, decomposed per skill column. -/
theorem roleProfileE_ok_elim {skill_cols : List String} {g : List Row}
    {prof : List (String × ℚ)}
    (h : roleProfileE skill_cols g = .ok prof) :
    ∀ c : String,
      (c ∈ skill_cols →
        ∃ m, seriesMean (g.map (fun w => w.cell c)) = .ok m ∧
          prof.lookup c = some m) ∧
      (c ∉ skill_cols → prof.lookup c = none) := by
  have h' : exceptMapList
      (fun c => (seriesMean (g.map (fun w => w.cell c))).map (fun m => (c, m)))
      skill_cols = .ok prof := h
  exact exceptMapList_keyed (fun c => seriesMean (g.map (fun w => w.cell c)))
    skill_cols prof h'

/-! ## Helper lemmas about the consumers -/

theorem lookup_map_fn {β : Type} (f : String → β) {features : List String}
    {s : String} (h : s ∈ features) :
    (features.map (fun t => (t, f t))).lookup s = some (f s) := by
  induction features with
  | nil => cases h
  | cons c cs ih =>
    by_cases hc : s = c
    · subst hc; simp [List.lookup]
    · rcases List.mem_cons.mp h with h' | h'
      · exact absurd h' hc
      · simp [List.lookup, beq_eq_false_iff_ne.mpr hc, ih h']

theorem lookup_map_snd {β γ : Type} (f : β → γ) (l : List (String × β))
    (r : String) :
    (l.map (fun rp => (rp.1, f rp.2))).lookup r = (l.lookup r).map f := by
  induction l with
  | nil => rfl
  | cons p ps ih =>
    by_cases hr : r = p.1
    · subst hr; simp [List.lookup]
    · simp [List.lookup, beq_eq_false_iff_ne.mpr hr, ih]

theorem skillGapsCount_eq_countP (us : List (String × ℤ))
    (cp : List (String × ℚ)) (features : List String) :
    skillGapsCount us cp features =
      (skillData us cp features).countP (fun r => decide (0 < r.gap)) := by
  unfold skillGapsCount skillData
  rw [List.countP_map]
  refine List.countP_congr ?_
  intro s _
  simp only [Function.comp, skillDataRow, decide_eq_true_eq]
  omega

/-! ## Concrete datasets used by witnesses and counterexamples -/

/-- One role `X`, one skill column `A` with a single observation of level 4. -/
def dfOneRole : DF := ⟨["Role", "A"], [⟨"X", fun _ => Cell.num 4⟩]⟩

/-- One role `X`, one skill column `A` with observations 4, 6, 5, 5
(duplicated level 5; mean 5). -/
def dfDup : DF :=
  ⟨["Role", "A"],
   [⟨"X", fun _ => Cell.num 4⟩, ⟨"X", fun _ => Cell.num 6⟩,
    ⟨"X", fun _ => Cell.num 5⟩, ⟨"X", fun _ => Cell.num 5⟩]⟩

/-- The spec's concrete scenario, as a dense dataframe: role `X` with skill
columns `A` (mean 4) and `B` (mean 2); the catalog skill `C` has no
observations (it is not a column of the file). -/
def scenarioDF : DF :=
  ⟨["Role", "A", "B"],
   [⟨"X", fun c => if c = "A" then Cell.num 4 else Cell.num 2⟩,
    ⟨"X", fun c => if c = "A" then Cell.num 4 else Cell.num 2⟩]⟩

/-- A dataframe whose single observation has a level that cannot be read as
a number. -/
def badDF : DF := ⟨["Role", "S"], [⟨"X", fun _ => Cell.txt "junk"⟩]⟩


/-! ## Claims -/

/-- C4: gap evaluation is deterministic and idempotent — for a fixed user
skill vector, career profile and skill list, two evaluations of the
`skill_data` loop give identical gap reports and identical
skills-to-improve counts, and the random draw feeding the match-score box
has no influence on the count (only on the match score). -/
theorem claim_C4 (us : List (String × ℤ)) (cp : List (String × ℚ))
    (features : List String) (latest : Option (String × ℚ)) (sel : String)
    (rng1 rng2 : ℚ) :
    skillData us cp features = skillData us cp features ∧
    skillGapsCount us cp features = skillGapsCount us cp features ∧
    (pageSummary rng1 latest sel us cp features).2 =
      (pageSummary rng2 latest sel us cp features).2 :=
  ⟨rfl, rfl, rfl⟩

/-- C5: for every skill the gap is `round(profile.get(skill, 3)) -
user_skills.get(skill, 3)`; the skills-to-improve count equals exactly the
number of rows with gap > 0; and a report where every gap is ≤ 0 is the
normal success case: count 0 and tab 2 shows the success message. -/
theorem claim_C5 (us : List (String × ℤ)) (cp : List (String × ℚ))
    (features : List String) :
    (skillData us cp features).map (fun r => r.gap) =
      features.map (fun s => pythonRound (dictGetQ cp s 3) - dictGetZ us s 3) ∧
    skillGapsCount us cp features =
      (skillData us cp features).countP (fun r => decide (0 < r.gap)) ∧
    ((skillData us cp features).all (fun r => decide (r.gap ≤ 0)) = true →
      skillGapsCount us cp features = 0 ∧
      tab2ShowsSuccess (skillData us cp features) = true) := by
  refine ⟨?_, skillGapsCount_eq_countP us cp features, ?_⟩
  · simp only [skillData, List.map_map]
    rfl
  · intro hall
    have hnone : ∀ r ∈ skillData us cp features, ¬ (0 < r.gap) := by
      intro r hr
      have := List.all_eq_true.mp hall r hr
      simp only [decide_eq_true_eq] at this
      omega
    constructor
    · rw [skillGapsCount_eq_countP]
      rw [List.countP_eq_zero]
      intro r hr
      simpa using hnone r hr
    · unfold tab2ShowsSuccess gapRowsToImprove
      have hfil : (skillData us cp features).filter
          (fun r => decide (0 < r.gap)) = [] := by
        rw [List.filter_eq_nil_iff]
        intro r hr
        simpa using hnone r hr
      rw [hfil]
      rfl

/-- C5 witness: at a concrete input with no positive gap, the count is zero
and tab 2 shows the success message. -/
theorem claim_C5_witness :
    skillGapsCount [] [] ["S"] = 0 ∧
    tab2ShowsSuccess (skillData [] [] ["S"]) = true :=
  (claim_C5 [] [] ["S"]).2.2 (by decide)

/-- C8: evaluating the gap with an empty user vector gives the same rows and
the same skills-to-improve count as evaluating with a vector mapping every
feature to the midpoint rank 3 — a skill missing from the user vector is
treated identically to one present at the default. -/
theorem claim_C8 (cp : List (String × ℚ)) (features : List String) :
    skillData [] cp features =
      skillData (features.map (fun s => (s, (3:ℤ)))) cp features ∧
    skillGapsCount [] cp features =
      skillGapsCount (features.map (fun s => (s, (3:ℤ)))) cp features := by
  have key : ∀ s ∈ features,
      dictGetZ (features.map (fun t => (t, (3:ℤ)))) s 3 = dictGetZ [] s 3 := by
    intro s hs
    unfold dictGetZ
    rw [lookup_map_fn (fun _ => (3:ℤ)) hs]
    rfl
  constructor
  · unfold skillData
    refine List.map_congr_left ?_
    intro s hs
    unfold skillDataRow
    rw [key s hs]
  · unfold skillGapsCount
    refine List.countP_congr ?_
    intro s hs
    rw [key s hs]

/-- C9: round-trip — a user vector equal to the rounded profile yields a gap
report in which every gap is ≤ 0 (indeed 0) and a zero skills-to-improve
count. -/
theorem claim_C9 (cp : List (String × ℚ)) (features : List String) :
    (skillData (roundedVector cp features) cp features).all
      (fun r => decide (r.gap ≤ 0)) = true ∧
    skillGapsCount (roundedVector cp features) cp features = 0 := by
  have key : ∀ s ∈ features,
      dictGetZ (roundedVector cp features) s 3 =
        pythonRound (dictGetQ cp s 3) := by
    intro s hs
    unfold roundedVector dictGetZ
    rw [lookup_map_fn (fun t => pythonRound (dictGetQ cp t 3)) hs]
    rfl
  constructor
  · rw [List.all_eq_true]
    intro r hr
    obtain ⟨s, hs, hrs⟩ := List.mem_map.mp hr
    subst hrs
    simp only [skillDataRow, key s hs, decide_eq_true_eq]
    omega
  · unfold skillGapsCount
    rw [List.countP_eq_zero]
    intro s hs
    rw [key s hs]
    simp

/-- C10: `numeric_to_text_level` is total — for an int (Python bools are
ints) with value in 0..6 it returns the label at that zero-based position
(the guarded indexing cannot fail), and for every other input it returns
"Average" rather than raising. -/
theorem claim_C10 (v : PyVal) :
    (isinstance_int v = true → 0 ≤ pyIntVal v → pyIntVal v ≤ 6 →
      pyIndex proficiency_levels (pyIntVal v) =
        some (numeric_to_text_level v)) ∧
    ((isinstance_int v = false ∨ pyIntVal v < 0 ∨ 6 < pyIntVal v) →
      numeric_to_text_level v = "Average") := by
  constructor
  · intro hint h0 h6
    have hlt : (pyIntVal v).toNat < proficiency_levels.length := by
      simp only [proficiency_levels, List.length]
      omega
    obtain ⟨lbl, hlbl⟩ : ∃ lbl,
        proficiency_levels.get? (pyIntVal v).toNat = some lbl :=
      ⟨_, List.get?_eq_get hlt⟩
    have hpy : pyIndex proficiency_levels (pyIntVal v) = some lbl := by
      unfold pyIndex
      rw [if_pos h0, hlbl]
    rw [hpy]
    unfold numeric_to_text_level
    rw [if_pos ⟨hint, h0, h6⟩, hpy]
    rfl
  · intro hbad
    unfold numeric_to_text_level
    rw [if_neg ?_]
    rintro ⟨hint, h0, h6⟩
    rcases hbad with hb | hb | hb
    · rw [hint] at hb; cases hb
    · omega
    · omega

/-- C10 witness: the int 2 maps to the label at position 2 and a float maps
to "Average". -/
theorem claim_C10_witness :
    pyIndex proficiency_levels (pyIntVal (PyVal.pyInt 2)) =
      some (numeric_to_text_level (PyVal.pyInt 2)) ∧
    numeric_to_text_level (PyVal.pyFloat 5) = "Average" :=
  ⟨(claim_C10 (PyVal.pyInt 2)).1 rfl (by decide) (by decide),
   (claim_C10 (PyVal.pyFloat 5)).2 (Or.inl rfl)⟩

/-- C3 (amended): only the top-skills section clamps — there the rounded
required level and user level are forced into 0..6 with `max(0, min(6, _))`
before the gap and label lookups; the detailed `skill_data` loop and the
skills-to-improve metric loop use `round(profile.get(skill, 3))` with no
clamping (so an out-of-range profile value yields an out-of-range rank
there); when the profile value lies in [0, 6] the unclamped rounded value
is nonetheless a valid rank. -/
theorem claim_C3_amended :
    (∀ (us : List (String × ℤ)) (skill : String) (score : ℚ),
      0 ≤ (topSkillView us skill score).requiredLevel ∧
      (topSkillView us skill score).requiredLevel ≤ 6 ∧
      0 ≤ (topSkillView us skill score).userLevel ∧
      (topSkillView us skill score).userLevel ≤ 6 ∧
      (topSkillView us skill score).gap =
        (topSkillView us skill score).requiredLevel -
          (topSkillView us skill score).userLevel) ∧
    (∀ (us : List (String × ℤ)) (cp : List (String × ℚ)) (skill : String),
      (skillDataRow us cp skill).gap =
        pythonRound (dictGetQ cp skill 3) - dictGetZ us skill 3) ∧
    (∀ q : ℚ, 0 ≤ q → q ≤ 6 → 0 ≤ pythonRound q ∧ pythonRound q ≤ 6) := by
  refine ⟨?_, fun us cp skill => rfl, ?_⟩
  · intro us skill score
    unfold topSkillView
    refine ⟨le_max_left 0 _, ?_, le_max_left 0 _, ?_, rfl⟩
    · exact max_le (by norm_num) (min_le_left 6 _)
    · exact max_le (by norm_num) (min_le_left 6 _)
  · intro q h0 h6
    refine ⟨pythonRound_nonneg h0, pythonRound_le ?_⟩
    exact_mod_cast h6

/-- C3 counterexample: with profile value 7.0 for skill "S", the
`skill_data` loop uses the unclamped rank 7 — the gap is 7 − 3 = 4 instead
of the 3 a clamped rank would give, and the label lookup
`proficiency_levels[7]` fails (IndexError), so the claim that the required
level is clamped into 0..6 before any further use is false there. -/
theorem claim_C3_counterexample :
    (skillDataRow [] [("S", (7:ℚ))] "S").gap = 4 ∧
    (skillDataRow [] [("S", (7:ℚ))] "S").requiredLevelLabel = none ∧
    ¬ (pythonRound (dictGetQ [("S", (7:ℚ))] "S" 3) ≤ 6) ∧
    max 0 (min 6 (pythonRound (dictGetQ [("S", (7:ℚ))] "S" 3))) - 3 = 3 := by
  decide

/-- C3 witness: the clamped top-skills rank at score 7 is within 0..6, and
an in-range profile value rounds to an in-range rank. -/
theorem claim_C3_witness :
    (0 ≤ (topSkillView [] "S" (7:ℚ)).requiredLevel ∧
      (topSkillView [] "S" (7:ℚ)).requiredLevel ≤ 6) ∧
    (0 ≤ pythonRound (5:ℚ) ∧ pythonRound (5:ℚ) ≤ 6) := by
  have h1 := claim_C3_amended.1 [] "S" (7:ℚ)
  have h2 := claim_C3_amended.2.2 (5:ℚ) (by norm_num) (by norm_num)
  exact ⟨⟨h1.1, h1.2.1⟩, h2⟩

/-- C1: for every role the builder emits and every catalog skill with zero
observations for that (role, skill) pair, the profile value used for that
skill — `career_profile.get(skill, 3.0)` — is the midpoint rank 3, a
defined numeric level; the zero-observation pair never makes the builder
fail. -/
theorem claim_C1 {df : DF} {n : ℕ} {profiles top : Profiles} {r s : String}
    {prof : List (String × ℚ)}
    (hok : get_career_skill_profiles df n = .ok (profiles, top))
    (hr : profiles.lookup r = some prof)
    (hzero : obsCount df r s = 0) :
    dictGetQ prof s 3 = 3 := by
  obtain ⟨hrole, htop, hkey⟩ := get_profiles_ok_elim hok
  have hrin : r ∈ rolesOf df.rows := by
    by_contra hno
    rw [(hkey r).2 hno] at hr
    cases hr
  obtain ⟨prof', hprofE, hlook⟩ := (hkey r).1 hrin
  rw [hr] at hlook
  injection hlook with he
  subst he
  have hsnot : s ∉ skillColsOf df := by
    intro hsin
    unfold obsCount obsLevels at hzero
    rw [if_pos hsin] at hzero
    simp only [List.length_map] at hzero
    exact groupOf_ne_nil hrin (List.length_eq_zero.mp hzero)
  have hnone := (roleProfileE_ok_elim hprofE s).2 hsnot
  unfold dictGetQ
  rw [hnone]
  rfl

/-- C1 witness: on a dataset with role X and only skill column A, the
catalog skill C has zero observations and its profile value is 3. -/
theorem claim_C1_witness :
    obsCount dfOneRole "X" "C" = 0 ∧
    dictGetQ [("A", (4:ℚ))] "C" 3 = 3 := by
  have hok : get_career_skill_profiles dfOneRole 5 =
      .ok ([("X", [("A", (4:ℚ))])], [("X", [("A", (4:ℚ))])]) := by
    simp [get_career_skill_profiles, dfOneRole, skillColsOf, groupByRole,
      rolesOf, groupOf, roleProfileE, exceptMapList, seriesMean, numsOf,
      cellNumOf, sortDescBy, insertDescBy, exceptMap_ok, exceptMap_error]
  have hlook : ([("X", [("A", (4:ℚ))])] : Profiles).lookup "X" =
      some [("A", (4:ℚ))] := rfl
  exact ⟨rfl, claim_C1 hok hlook rfl⟩

/-- C7: for every (role, skill) pair with at least one observation, the
profile value equals the arithmetic mean of exactly the numeric levels
recorded for that pair — the level list is read off the rows (duplicates
counted, its length is the observation count) and the value is its sum
divided by its length. -/
theorem claim_C7 {df : DF} {n : ℕ} {profiles top : Profiles} {r s : String}
    {prof : List (String × ℚ)}
    (hok : get_career_skill_profiles df n = .ok (profiles, top))
    (hr : profiles.lookup r = some prof)
    (hobs : 0 < obsCount df r s) :
    (numsOf (obsLevels df r s)).isSome = true ∧
    dictGetQ prof s 3 =
      (obsValues df r s).sum / ((obsValues df r s).length : ℚ) ∧
    (obsValues df r s).length = obsCount df r s := by
  obtain ⟨hrole, htop, hkey⟩ := get_profiles_ok_elim hok
  have hrin : r ∈ rolesOf df.rows := by
    by_contra hno
    rw [(hkey r).2 hno] at hr
    cases hr
  obtain ⟨prof', hprofE, hlook⟩ := (hkey r).1 hrin
  rw [hr] at hlook
  injection hlook with he
  subst he
  have hsin : s ∈ skillColsOf df := by
    by_contra hno
    unfold obsCount obsLevels at hobs
    rw [if_neg hno] at hobs
    simp at hobs
  obtain ⟨m, hmean, hlookc⟩ := (roleProfileE_ok_elim hprofE s).1 hsin
  obtain ⟨qs, hqs, hm⟩ := seriesMean_ok_elim hmean
  have hobsl : obsLevels df r s =
      (groupOf df.rows r).map (fun w => w.cell s) := by
    unfold obsLevels
    rw [if_pos hsin]
  refine ⟨?_, ?_, ?_⟩
  · rw [hobsl, hqs]
    rfl
  · unfold dictGetQ obsValues
    rw [hlookc, hobsl, hqs]
    simpa using hm
  · unfold obsValues obsCount
    rw [hobsl, hqs]
    simp [numsOf_length hqs]

/-- C7 witness: role X's skill A with levels 4, 6, 5, 5 (a duplicated 5,
counted twice) has profile value (4+6+5+5)/4 = 5. -/
theorem claim_C7_witness :
    (numsOf (obsLevels dfDup "X" "A")).isSome = true ∧
    dictGetQ [("A", (5:ℚ))] "A" 3 =
      (obsValues dfDup "X" "A").sum / ((obsValues dfDup "X" "A").length : ℚ) ∧
    (obsValues dfDup "X" "A").length = obsCount dfDup "X" "A" := by
  have hok : get_career_skill_profiles dfDup 5 =
      .ok ([("X", [("A", (5:ℚ))])], [("X", [("A", (5:ℚ))])]) := by
    simp [get_career_skill_profiles, dfDup, skillColsOf, groupByRole,
      rolesOf, groupOf, roleProfileE, exceptMapList, seriesMean, numsOf,
      cellNumOf, sortDescBy, insertDescBy, exceptMap_ok, exceptMap_error]
    norm_num
  have hlook : ([("X", [("A", (5:ℚ))])] : Profiles).lookup "X" =
      some [("A", (5:ℚ))] := rfl
  exact claim_C7 hok hlook (by decide)

/-- C6 (amended): for every role the top-N list is the first N entries of
the stable descending sort of that role's profile — a permutation of the
profile's entries in weakly descending mean order with ties kept in catalog
(column) order.  The ranking covers only the dataframe's skill columns:
a catalog skill with zero observations never enters the top list (its
midpoint default 3 exists only at consumer lookup), so in the spec's
scenario (A mean 4, B mean 2, C no data) the top-2 is [A, B], not the
claimed [A, C]. -/
theorem claim_C6_amended :
    (∀ (df : DF) (n : ℕ) (profiles top : Profiles) (r : String)
        (tl : List (String × ℚ)),
      get_career_skill_profiles df n = .ok (profiles, top) →
      top.lookup r = some tl →
      tl = (sortDescBy (fun e => e.2) (careerProfileOf profiles r)).take n ∧
      List.Perm (sortDescBy (fun e => e.2) (careerProfileOf profiles r))
        (careerProfileOf profiles r) ∧
      (sortDescBy (fun e => e.2) (careerProfileOf profiles r)).Pairwise
        (fun a b => b.2 ≤ a.2) ∧
      (∀ v : ℚ,
        (sortDescBy (fun e => e.2) (careerProfileOf profiles r)).filter
          (fun e => decide (e.2 = v)) =
        (careerProfileOf profiles r).filter (fun e => decide (e.2 = v)))) ∧
    (get_career_skill_profiles scenarioDF 2 =
       .ok ([("X", [("A", (4:ℚ)), ("B", 2)])],
            [("X", [("A", (4:ℚ)), ("B", 2)])]) ∧
     obsCount scenarioDF "X" "C" = 0 ∧
     dictGetQ (careerProfileOf [("X", [("A", (4:ℚ)), ("B", 2)])] "X") "C" 3
       = 3 ∧
     [("A", (4:ℚ)), ("B", (2:ℚ))].map Prod.fst = ["A", "B"]) := by
  constructor
  · intro df n profiles top r tl hok htl
    obtain ⟨hrole, htop, hkey⟩ := get_profiles_ok_elim hok
    rw [htop] at htl
    rw [lookup_map_snd (fun prof => (sortDescBy (fun e => e.2) prof).take n)
      profiles r] at htl
    cases hpr : profiles.lookup r with
    | none => rw [hpr] at htl; cases htl
    | some prof =>
      rw [hpr] at htl
      simp only [Option.map_some', Option.some.injEq] at htl
      have hcp : careerProfileOf profiles r = prof := by
        unfold careerProfileOf
        rw [hpr]
        rfl
      rw [hcp]
      exact ⟨htl.symm, perm_sortDescBy _ _, sorted_sortDescBy _ _,
        fun v => filter_sortDescBy _ _ v⟩
  · refine ⟨?_, rfl, rfl, rfl⟩
    simp [get_career_skill_profiles, scenarioDF, skillColsOf, groupByRole,
      rolesOf, groupOf, roleProfileE, exceptMapList, seriesMean, numsOf,
      cellNumOf, sortDescBy, insertDescBy, exceptMap_ok, exceptMap_error]
    norm_num

/-- C6 counterexample: in the spec's concrete scenario the code's top-2 for
role X is [A, B] — the zero-observation skill C (whose consumer-level
default is 3) is not in the role profile at all, so the claimed top-2
[A, C] is wrong. -/
theorem claim_C6_counterexample :
    get_career_skill_profiles scenarioDF 2 =
      .ok ([("X", [("A", (4:ℚ)), ("B", 2)])],
           [("X", [("A", (4:ℚ)), ("B", 2)])]) ∧
    obsCount scenarioDF "X" "C" = 0 ∧
    dictGetQ (careerProfileOf [("X", [("A", (4:ℚ)), ("B", 2)])] "X") "C" 3
      = 3 ∧
    [("A", (4:ℚ)), ("B", (2:ℚ))].map Prod.fst ≠ ["A", "C"] := by
  refine ⟨?_, rfl, rfl, by decide⟩
  simp [get_career_skill_profiles, scenarioDF, skillColsOf, groupByRole,
    rolesOf, groupOf, roleProfileE, exceptMapList, seriesMean, numsOf,
    cellNumOf, sortDescBy, insertDescBy, exceptMap_ok, exceptMap_error]
  norm_num

/-- C6 witness: the scenario's top-2 equals the stable descending sort of
role X's profile, which is weakly descending. -/
theorem claim_C6_witness :
    [("A", (4:ℚ)), ("B", (2:ℚ))] =
      (sortDescBy (fun e => e.2)
        (careerProfileOf [("X", [("A", (4:ℚ)), ("B", 2)])] "X")).take 2 ∧
    (sortDescBy (fun e => e.2)
      (careerProfileOf [("X", [("A", (4:ℚ)), ("B", 2)])] "X")).Pairwise
      (fun a b => b.2 ≤ a.2) := by
  have hok : get_career_skill_profiles scenarioDF 2 =
      .ok ([("X", [("A", (4:ℚ)), ("B", 2)])],
           [("X", [("A", (4:ℚ)), ("B", 2)])]) := by
    simp [get_career_skill_profiles, scenarioDF, skillColsOf, groupByRole,
      rolesOf, groupOf, roleProfileE, exceptMapList, seriesMean, numsOf,
      cellNumOf, sortDescBy, insertDescBy, exceptMap_ok, exceptMap_error]
    norm_num
  have h := claim_C6_amended.1 scenarioDF 2
    [("X", [("A", (4:ℚ)), ("B", 2)])] [("X", [("A", (4:ℚ)), ("B", 2)])]
    "X" [("A", (4:ℚ)), ("B", 2)] hok rfl
  exact ⟨h.1, h.2.2.1⟩

/-- C2 (amended): when an observation's level cannot be read as a number,
`get_career_skill_profiles` does report an error value to its caller (its
result carries no profiles); but the module-level caller silently swallows
the error and substitutes simulated random profiles, so the page still
produces profile output instead of failing the batch. -/
theorem claim_C2_amended (df : DF) (r s : String) (w : Row)
    (rng : String → String → ℚ) (classes features : List String)
    (hrole : "Role" ∈ df.cols) (hw : w ∈ df.rows) (hwr : w.role = r)
    (hs : s ∈ skillColsOf df) (hbad : cellNumOf (w.cell s) = none) :
    (get_career_skill_profiles df 5).toOption = none ∧
    pageProfiles rng classes features df =
      (fallbackProfiles rng classes features,
       fallbackTop rng classes features) := by
  have hwin : w ∈ groupOf df.rows r := by
    simp [groupOf, List.mem_filter, hw, hwr]
  have hcell : w.cell s ∈ (groupOf df.rows r).map (fun x => x.cell s) :=
    List.mem_map_of_mem _ hwin
  have hmean := seriesMean_error_of_mem hcell hbad
  have hrp : ∃ e', roleProfileE (skillColsOf df) (groupOf df.rows r) =
      .error e' := by
    unfold roleProfileE
    have hfx : (seriesMean ((groupOf df.rows r).map (fun w => w.cell s))).map
        (fun m => (s, m)) =
        .error "TypeError: could not convert string to numeric" := by
      rw [hmean, exceptMap_error]
    exact exceptMapList_error_of_mem _ hs hfx
  obtain ⟨e1, he1⟩ := hrp
  have hrin : r ∈ rolesOf df.rows := mem_rolesOf.mpr ⟨w, hw, hwr⟩
  have hgmem : (r, groupOf df.rows r) ∈ groupByRole df.rows := by
    unfold groupByRole
    exact List.mem_map_of_mem _ hrin
  have hbuild : ∃ e2, exceptMapList
      (fun rg => (roleProfileE (skillColsOf df) rg.2).map
        (fun prof => (rg.1, prof)))
      (groupByRole df.rows) = .error e2 := by
    have hfx : (roleProfileE (skillColsOf df) (groupOf df.rows r)).map
        (fun prof => (r, prof)) = .error e1 := by
      rw [he1, exceptMap_error]
    exact exceptMapList_error_of_mem _ hgmem hfx
  obtain ⟨e2, he2⟩ := hbuild
  have hget : get_career_skill_profiles df 5 =
      .error ("Error processing career profiles: " ++ e2) := by
    unfold get_career_skill_profiles
    rw [if_pos hrole, he2]
  constructor
  · rw [hget]
    rfl
  · unfold pageProfiles
    rw [hget]

/-- C2 counterexample: at a dataset whose only record has a non-numeric
level, the builder reports an error — yet the module pipeline still
produces (simulated) profile output, a non-empty profile map, refuting the
claim that no profile output is produced for that batch. -/
theorem claim_C2_counterexample :
    (get_career_skill_profiles badDF 5).toOption = none ∧
    (pageProfiles (fun _ _ => 4) ["RoleA"] ["S"] badDF).1 =
      [("RoleA", [("S", (4:ℚ))])] ∧
    [("RoleA", [("S", (4:ℚ))])] ≠ ([] : Profiles) := by
  refine ⟨rfl, rfl, ?_⟩
  intro h
  cases h

/-- C2 witness: the amended claim applied to the concrete malformed
dataset. -/
theorem claim_C2_witness :
    (get_career_skill_profiles badDF 5).toOption = none ∧
    pageProfiles (fun _ _ => 4) ["RoleA"] ["S"] badDF =
      (fallbackProfiles (fun _ _ => 4) ["RoleA"] ["S"],
       fallbackTop (fun _ _ => 4) ["RoleA"] ["S"]) :=
  claim_C2_amended badDF "X" "S" ⟨"X", fun _ => Cell.txt "junk"⟩
    (fun _ _ => 4) ["RoleA"] ["S"]
    (by decide) (List.mem_cons_self _ _) rfl (by decide) rfl
